import Mathlib

/-!
# sf-tui: the metadata retriever session (`models/metadataRetriever/metadataRetriever.go`)

A shallow embedding of the bubbletea model of the metadata browser: the
`Update` event handler (wizard step, filter column, selection toggle, row
filter), `View`, `ColumnID.String` and `New`.

Conventions of the embedding

* Go `int` is `Int`, and every addition or subtraction is wrapped to 64 bits
  by `wrapInt`; Go `%` is the truncating remainder `Int.tmod`.
* A run-time panic (index out of range, write to a nil map) is the result
  `none`.
* The widgets of the `bubbles` library (text input, table, list), the
  `lipgloss` styles and `unicode.ToLower` are not code of this repository:
  they are the fields of `Env`, and every general theorem holds for every
  `Env`.  `simEnv` is one small instance, used to evaluate the handler on
  concrete inputs.
* Go strings are `String`; cells come from decoded JSON and from the text
  input, so they are valid UTF-8, where the byte-wise `strings.Contains` is
  containment of the rune sequences.
-/

namespace MetadataRetriever

/-! ## Machine integers and indexing -/

/-- Two's-complement wrap of an integer to the 64-bit range of Go `int`. -/
def wrapInt (x : Int) : Int :=
  (x + 9223372036854775808) % 18446744073709551616 - 9223372036854775808

/-- Go indexing `xs[i]` with its bounds check: `none` is the run-time panic. -/
def index {α : Type} (xs : List α) (i : Int) : Option α :=
  if i < 0 then none else xs.get? i.toNat

/-! ## Events -/

/-- The key types of `tea.KeyMsg` that the handler or the widgets look at. -/
inductive KeyType where
  | KeyCtrlC
  | KeyEsc
  | KeyTab
  | KeyLeft
  | KeyRight
  | KeyEnter
  | KeyUp
  | KeyDown
  | KeyBackspace
  | KeyRunes
  deriving DecidableEq, Repr

/-- The message `tea.KeyMsg`: a key type and, for `KeyRunes`, the typed runes. -/
structure KeyMsg where
  keyType : KeyType
  Runes : List Char
  deriving DecidableEq, Repr

/-- The messages `tea.Msg` delivered to `Update`: a resize, a key press, or
any other message (cursor blink and the like), which `Update` only forwards. -/
inductive Msg where
  | WindowSizeMsg (Width Height : Int)
  | KeyMsg (k : KeyMsg)
  | Other (tag : Nat)
  deriving DecidableEq, Repr

/-- The command returned by `Update`: `tea.Quit`, or the batch of the
commands of the widgets. -/
inductive Cmd where
  | Quit
  | Batch
  deriving DecidableEq, Repr

/-! ## Data model -/

/-- The type `table.Row`, a slice of cells. -/
abbrev Row := List String

/-- The type `table.Column`. -/
structure Column where
  Title : String
  Width : Int
  deriving DecidableEq, Repr

/-- The enumeration `FetchState`. -/
abbrev Fetch_Idle : Int := 0

/-- The enumeration `WizardStep`, first state. -/
abbrev PickMetadataType : Int := 0

/-- The enumeration `WizardStep`, second state. -/
abbrev PickMetadataRecord : Int := 1

/-- The enumeration `ColumnID`: the synthetic selector column. -/
abbrev Col_Checkbox : Int := 0

/-- The enumeration `ColumnID`: metadata name. -/
abbrev Col_FullName : Int := 1

/-- The enumeration `ColumnID`: creator. -/
abbrev Col_CreatedBy : Int := 2

/-- The enumeration `ColumnID`: creation date. -/
abbrev Col_CreatedAt : Int := 3

/-- The enumeration `ColumnID`: last modifier. -/
abbrev Col_UpdatedBy : Int := 4

/-- The enumeration `ColumnID`: last modification date. -/
abbrev Col_UpdatedAt : Int := 5

/-- The method `ColumnID.String`: the five-entry label array indexed by the
raw value of the column. -/
def ColumnID.String (c : Int) : Option String :=
  index ["Metadata name", "Created by", "Created at", "Updated by", "Updated at"] c

/-- A Go `map[int]bool`: `none` is the nil map, `some f` an initialised map
in which `f k = none` means that the key `k` is absent. -/
abbrev GoMap := Option (Int → Option Bool)

/-- The two-valued read `val, ok := m[k]`; it never panics, also on a nil map. -/
def GoMap.get (m : GoMap) (k : Int) : Bool × Bool :=
  match m with
  | none => (false, false)
  | some f =>
    match f k with
    | none => (false, false)
    | some v => (v, true)

/-- The write `m[k] = v`; on a nil map it panics. -/
def GoMap.set (m : GoMap) (k : Int) (v : Bool) : Option GoMap :=
  match m with
  | none => none
  | some f => some (some (fun j => if j = k then some v else f j))

/-- The one-valued read `m[k]`, false for an absent key. -/
def GoMap.lookup (m : GoMap) (k : Int) : Bool :=
  (m.get k).1

/-- The capabilities that the model takes from outside the repository: the
three `bubbles` widgets with the operations the source calls on them (and
the update of the list, which the widget offers), the two `lipgloss`
styles, and `unicode.ToLower`. -/
structure Env where
  TextInput : Type
  Table : Type
  ListModel : Type
  textInputNew : TextInput
  textInputUpdate : TextInput → Msg → TextInput
  textInputValue : TextInput → String
  textInputView : TextInput → String
  tableNew : List Column → List Row → Table
  tableSetHeight : Table → Int → Table
  tableSetRows : Table → List Row → Table
  tableCursor : Table → Int
  tableUpdate : Table → Msg → Table
  tableView : Table → String
  listNew : ListModel
  listSetSize : ListModel → Int → Int → ListModel
  listUpdate : ListModel → Msg → ListModel
  listView : ListModel → String
  toLowerRune : Char → Char
  highlightRender : String → String
  baseRender : String → String

/-- The struct `Model`. -/
structure Model (E : Env) where
  textInput : E.TextInput
  table : E.Table
  list : E.ListModel
  originalRows : List Row
  filterColumn : Int
  selectedRows : GoMap
  fetchState : Int
  wizardStep : Int
  frameSize : List Int

/-! ## The standard-library string functions -/

/-- The function `strings.ToLower`: `unicode.ToLower` on every rune. -/
def ToLower (E : Env) (s : String) : String :=
  String.mk (s.data.map E.toLowerRune)

/-- The function `strings.Contains`. -/
def Contains (s substr : String) : Bool :=
  decide (substr.data <:+: s.data)

/-! ## Update -/

/-- The filter loop of `Update` (lines 100 to 113): `i` is the index of the
head of the rows still to visit and `filteredRows` the slice built so far. -/
def filterLoop (E : Env) (filterColumn : Int) (selectedRows : GoMap) (searchTerm : String) :
    Nat → List Row → List Row → Option (List Row)
  | _, [], filteredRows => some filteredRows
  | i, originalRow :: rest, filteredRows =>
    match index originalRow filterColumn with
    | none => none
    | some cell =>
      let targetValue := ToLower E cell
      if Contains targetValue searchTerm then
        let checkbox := if selectedRows.lookup (i : Int) then "🞊" else "🞅"
        if originalRow.length < 1 then none
        else
          let newRow := [checkbox] ++ originalRow.drop 1
          filterLoop E filterColumn selectedRows searchTerm (i + 1) rest (filteredRows ++ [newRow])
      else
        filterLoop E filterColumn selectedRows searchTerm (i + 1) rest filteredRows

/-- The part of `Update` after the switch (lines 97 to 120), reached by
every branch that does not return early: the text input takes the message,
the rows are filtered and set on the table, the table takes the message. -/
def refresh (E : Env) (m : Model E) (msg : Msg) : Option (Model E × Cmd) :=
  let textInput := E.textInputUpdate m.textInput msg
  let searchTerm := ToLower E (E.textInputValue textInput)
  match filterLoop E m.filterColumn m.selectedRows searchTerm 0 m.originalRows [] with
  | none => none
  | some filteredRows =>
    let table := E.tableSetRows m.table filteredRows
    let table := E.tableUpdate table msg
    some ({ m with textInput := textInput, table := table }, Cmd.Batch)

/-- The method `Model.Update`. -/
def Update (E : Env) (m : Model E) (msg : Msg) : Option (Model E × Cmd) :=
  match msg with
  | Msg.WindowSizeMsg Width Height =>
    let table := E.tableSetHeight m.table (wrapInt (Height - 7))
    match index m.frameSize 0, index m.frameSize 1 with
    | some h, some v =>
      let list := E.listSetSize m.list (wrapInt (Width - h)) (wrapInt (Height - v))
      refresh E { m with table := table, list := list } msg
    | _, _ => none
  | Msg.KeyMsg k =>
    match k.keyType with
    | KeyType.KeyCtrlC => some (m, Cmd.Quit)
    | KeyType.KeyEsc => some (m, Cmd.Quit)
    | KeyType.KeyTab =>
      refresh E { m with filterColumn := Int.tmod (wrapInt (m.filterColumn + 2)) 5 } msg
    | KeyType.KeyLeft =>
      refresh E { m with wizardStep := Int.tmod (wrapInt (m.wizardStep + 1)) 2 } msg
    | KeyType.KeyRight =>
      refresh E { m with wizardStep := Int.tmod (wrapInt (m.wizardStep - 1)) 2 } msg
    | KeyType.KeyEnter =>
      let cursor := E.tableCursor m.table
      let (val, ok) := m.selectedRows.get cursor
      match (if !ok then m.selectedRows.set cursor true else some m.selectedRows) with
      | none => none
      | some selectedRows =>
        match selectedRows.set cursor (!val) with
        | none => none
        | some selectedRows => refresh E { m with selectedRows := selectedRows } msg
    | _ => refresh E m msg
  | Msg.Other _ => refresh E m msg

/-- The format of the table view, shared by the second case and the
fall-through return of `View`. -/
def recordView (E : Env) (m : Model E) : Option String :=
  match ColumnID.String m.filterColumn with
  | none => none
  | some label =>
    some (" Filtering by: " ++ E.highlightRender label ++ " (Press [Tab] to switch)\n Input: "
      ++ E.textInputView m.textInput ++ "\n\n" ++ E.baseRender (E.tableView m.table) ++ "\n")

/-- The method `Model.View`. -/
def View (E : Env) (m : Model E) : Option String :=
  if m.wizardStep = PickMetadataType then
    some ("Choose metadata type\n" ++ E.textInputView m.textInput ++ "\n" ++ E.listView m.list)
  else if m.wizardStep = PickMetadataRecord then
    recordView E m
  else
    recordView E m

/-! ## New -/

/-- Modelled from the spec: the element type of `metadata.Result`, declared
in a file of the package that is not part of the sources at hand.  Its five
fields are the ones `New` reads; the two dates stand for the text that
their `String()` method yields. -/
structure MetadataField where
  FullName : String
  CreatedByName : String
  CreatedDate : String
  LastModifiedByName : String
  LastModifiedDate : String
  deriving DecidableEq, Repr

/-- The table columns declared in `New`. -/
def columns : List Column :=
  [ { Title := "", Width := 3 },
    { Title := "Metadata name", Width := 40 },
    { Title := "Created by", Width := 15 },
    { Title := "Created at", Width := 30 },
    { Title := "Updated by", Width := 15 },
    { Title := "Updated at", Width := 30 } ]

/-- The rows that `New` builds from the fetched result. -/
def newRows (result : List MetadataField) : List Row :=
  result.map fun field =>
    ["🞅", field.FullName, field.CreatedByName, field.CreatedDate,
      field.LastModifiedByName, field.LastModifiedDate]

/-- The constructor `New`; `result` is what the fetch and the decoding
returned (empty when either failed). -/
def New (E : Env) (result : List MetadataField) (frameSize : List Int) : Model E :=
  let rows := newRows result
  { textInput := E.textInputNew
    table := E.tableNew columns rows
    list := E.listNew
    originalRows := rows
    filterColumn := Col_FullName
    selectedRows := some (fun _ => none)
    fetchState := Fetch_Idle
    wizardStep := PickMetadataType
    frameSize := frameSize }

/-! ## Sessions -/

/-- The session loop: the messages are handled by `Update` one after the
other; a panic ends the run with `none`, `tea.Quit` ends it with the model
returned with it. -/
def run (E : Env) : Model E → List Msg → Option (Model E)
  | m, [] => some m
  | m, msg :: rest =>
    match Update E m msg with
    | none => none
    | some (m1, Cmd.Quit) => some m1
    | some (m1, Cmd.Batch) => run E m1 rest

/-! ## The visible rows, as the specification words them -/

/-- The selection marker of a visible row. -/
def marker (selected : Bool) : String :=
  if selected then "🞊" else "🞅"

/-- The query `IsSelected` of the specification: the stored flag, an absent
entry counting as false. -/
def IsSelected (selectedRows : GoMap) (identity : Nat) : Bool :=
  match selectedRows with
  | none => false
  | some f => (f (identity : Int)).getD false

/-- The inclusion test of the specification: the cell of the row at column
`c`, case-folded, contains the case-folded search text as a substring. -/
def matchesFilter (E : Env) (s : String) (c : Int) (row : Row) : Bool :=
  decide ((ToLower E s).data <:+: (ToLower E (row.getD c.toNat "")).data)

/-- The visible row of the record with original index `p.1` and row `p.2`:
its selection marker, then its cells 1 to 5. -/
def visibleRow (selectedRows : GoMap) (p : Nat × Row) : Row :=
  [marker (IsSelected selectedRows p.1), p.2.getD 1 "", p.2.getD 2 "", p.2.getD 3 "",
    p.2.getD 4 "", p.2.getD 5 ""]

/-- The function `Visible` of the specification: the rows paired with their
original index, those that match kept in their order, each projected to its
visible row. -/
def Visible_spec (E : Env) (originalRows : List Row) (selectedRows : GoMap) (s : String)
    (c : Int) : List Row :=
  ((originalRows.enum).filter fun p => matchesFilter E s c p.2).map (visibleRow selectedRows)

/-! ## A small instance of the widgets, for concrete evaluation -/

/-- The state of the table of `simEnv`. -/
structure SimTable where
  cols : List Column
  rows : List Row
  cursor : Int
  height : Int
  deriving DecidableEq, Repr

/-- The state of the list of `simEnv`. -/
structure SimList where
  cursor : Int
  width : Int
  height : Int
  deriving DecidableEq, Repr

/-- The text input of `simEnv`: typed runes are appended to the value and
backspace removes the last one. -/
def simTextInputUpdate (value : String) (msg : Msg) : String :=
  match msg with
  | Msg.KeyMsg k =>
    match k.keyType with
    | KeyType.KeyRunes => String.mk (value.data ++ k.Runes)
    | KeyType.KeyBackspace => String.mk value.data.dropLast
    | _ => value
  | _ => value

/-- The table of `simEnv`: the up and down keys move the cursor within the
rows. -/
def simTableUpdate (t : SimTable) (msg : Msg) : SimTable :=
  match msg with
  | Msg.KeyMsg k =>
    match k.keyType with
    | KeyType.KeyUp => { t with cursor := min (max (t.cursor - 1) 0) ((t.rows.length : Int) - 1) }
    | KeyType.KeyDown => { t with cursor := min (max (t.cursor + 1) 0) ((t.rows.length : Int) - 1) }
    | _ => t
  | _ => t

/-- The list of `simEnv`: the up and down keys move the cursor. -/
def simListUpdate (l : SimList) (msg : Msg) : SimList :=
  match msg with
  | Msg.KeyMsg k =>
    match k.keyType with
    | KeyType.KeyUp => { l with cursor := max (l.cursor - 1) 0 }
    | KeyType.KeyDown => { l with cursor := l.cursor + 1 }
    | _ => l
  | _ => l

/-- A small instance of `Env`: widgets that keep just the state the model
reads, ASCII case folding (which is `unicode.ToLower` on ASCII text), and
styles that add nothing. -/
@[reducible] def simEnv : Env where
  TextInput := String
  Table := SimTable
  ListModel := SimList
  textInputNew := ""
  textInputUpdate := simTextInputUpdate
  textInputValue := fun value => value
  textInputView := fun value => value
  tableNew := fun cols rows => { cols := cols, rows := rows, cursor := 0, height := 7 }
  tableSetHeight := fun t h => { t with height := h }
  tableSetRows := fun t rows => { t with rows := rows }
  tableCursor := fun t => t.cursor
  tableUpdate := simTableUpdate
  tableView := fun t => String.intercalate "\n" (t.rows.map (String.intercalate " "))
  listNew := { cursor := 0, width := 0, height := 0 }
  listSetSize := fun l w h => { l with width := w, height := h }
  listUpdate := simListUpdate
  listView := fun l => toString l.cursor
  toLowerRune := Char.toLower
  highlightRender := fun s => s
  baseRender := fun s => s

/-- A key press without runes. -/
def key (t : KeyType) : Msg :=
  Msg.KeyMsg { keyType := t, Runes := [] }

/-- The key press that types the runes of `s`. -/
def typed (s : String) : Msg :=
  Msg.KeyMsg { keyType := KeyType.KeyRunes, Runes := s.data }

/-- A fetched record with the given name. -/
def record (name : String) : MetadataField :=
  { FullName := name, CreatedByName := "u", CreatedDate := "d", LastModifiedByName := "u",
    LastModifiedDate := "d" }

/-- Five records; the search text "a" hides the second and the fourth. -/
def fiveRecords : List MetadataField :=
  [record "ax", record "b", record "ay", record "c", record "az"]

/-- The three records of the scenario of the specification. -/
def threeRecords : List MetadataField :=
  [record "Account", record "Contact", record "Lead"]

/-! ## Predicates on models and events -/

/-- Every row of the model has six cells. -/
def SixCells {E : Env} (m : Model E) : Prop :=
  ∀ row ∈ m.originalRows, row.length = 6

/-- The filter column is one of the six values of `ColumnID`. -/
def ColumnInRange {E : Env} (m : Model E) : Prop :=
  0 ≤ m.filterColumn ∧ m.filterColumn ≤ 5

/-- The message is a quit key. -/
def isQuit : Msg → Bool
  | Msg.KeyMsg k => k.keyType = KeyType.KeyCtrlC || k.keyType = KeyType.KeyEsc
  | _ => false

/-- The message is the selection-toggle key. -/
def isToggle : Msg → Bool
  | Msg.KeyMsg k => k.keyType = KeyType.KeyEnter
  | _ => false

/-- The message is a resize. -/
def isResize : Msg → Bool
  | Msg.WindowSizeMsg _ _ => true
  | _ => false

/-- The message is a wizard-navigation key. -/
def isWizardKey : Msg → Bool
  | Msg.KeyMsg k => k.keyType = KeyType.KeyLeft || k.keyType = KeyType.KeyRight
  | _ => false

/-- The table on which `Update` sets the filtered rows: the table of the
model, after `SetHeight` when the message is a resize. -/
def tableBeforeRows (E : Env) (m : Model E) (msg : Msg) : E.Table :=
  match msg with
  | Msg.WindowSizeMsg _ Height => E.tableSetHeight m.table (wrapInt (Height - 7))
  | _ => m.table

/-! ## Auxiliary lemmas -/

/-- The one-valued map read is the query `IsSelected`. -/
theorem lookup_eq_IsSelected (sel : GoMap) (i : Nat) : sel.lookup (i : Int) = IsSelected sel i := by
  cases sel with
  | none => rfl
  | some f =>
    simp only [GoMap.lookup, GoMap.get, IsSelected]
    cases f (i : Int) <;> rfl

/-- A row of length six is a list of six cells. -/
theorem six_cells_shape (row : Row) (h : row.length = 6) :
    ∃ a b c d e f, row = [a, b, c, d, e, f] := by
  rcases row with _ | ⟨a, _ | ⟨b, _ | ⟨c, _ | ⟨d, _ | ⟨e, _ | ⟨f, _ | ⟨g, t⟩⟩⟩⟩⟩⟩⟩ <;>
    simp at h
  exact ⟨a, b, c, d, e, f, rfl⟩

/-- Indexing a six-cell row at a column between 0 and 5 does not panic. -/
theorem index_six (row : Row) (c : Int) (h : row.length = 6) (h0 : 0 ≤ c) (h5 : c ≤ 5) :
    index row c = some (row.getD c.toNat "") := by
  have hlt : c.toNat < row.length := by omega
  simp only [index, if_neg (not_lt.mpr h0)]
  rw [List.get?_eq_getElem?, List.getD_eq_getElem?_getD, List.getElem?_eq_getElem hlt]
  rfl

/-- The filter loop on six-cell rows: it returns, and appends to the slice built so far
the visible rows of the rows still to visit. -/
theorem filterLoop_spec (E : Env) (c : Int) (sel : GoMap) (s : String) (h0 : 0 ≤ c) (h5 : c ≤ 5) :
    ∀ (rows : List Row) (i : Nat) (acc : List Row), (∀ row ∈ rows, row.length = 6) →
      filterLoop E c sel (ToLower E s) i rows acc =
        some (acc ++ ((rows.enumFrom i).filter fun p => matchesFilter E s c p.2).map
          (visibleRow sel)) := by
  intro rows
  induction rows with
  | nil => intro i acc _; simp [filterLoop]
  | cons row rest ih =>
    intro i acc hrows
    have hrow : row.length = 6 := hrows row (List.mem_cons_self _ _)
    have hrest : ∀ r ∈ rest, r.length = 6 := fun r hr => hrows r (List.mem_cons_of_mem _ hr)
    have hm : Contains (ToLower E (row.getD c.toNat "")) (ToLower E s) = matchesFilter E s c row := rfl
    rw [filterLoop, index_six row c hrow h0 h5]
    simp only [hm, List.enumFrom_cons]
    cases hk : matchesFilter E s c row with
    | false =>
      simp only [Bool.false_eq_true, if_false]
      rw [ih (i + 1) acc hrest, List.filter_cons_of_neg (by simpa using hk)]
    | true =>
      simp only [if_true]
      rw [if_neg (by omega), ih (i + 1) _ hrest, List.filter_cons_of_pos (by simpa using hk)]
      obtain ⟨a, b, c1, d, e, f, rfl⟩ := six_cells_shape row hrow
      simp [visibleRow, marker, lookup_eq_IsSelected]

/-- The tail of `Update` on a model with six-cell rows and a column in range. -/
theorem refresh_eq (E : Env) (m : Model E) (msg : Msg) (hrows : SixCells m)
    (hc : ColumnInRange m) :
    refresh E m msg =
      some ({ m with
              textInput := E.textInputUpdate m.textInput msg
              table := E.tableUpdate (E.tableSetRows m.table
                (Visible_spec E m.originalRows m.selectedRows
                  (E.textInputValue (E.textInputUpdate m.textInput msg)) m.filterColumn)) msg },
            Cmd.Batch) := by
  simp only [refresh, filterLoop_spec E m.filterColumn m.selectedRows _ hc.1 hc.2 m.originalRows 0 []
    hrows, List.nil_append]
  rfl

/-- The column computed by the next-filter-column key lies between 0 and 4. -/
theorem tab_column_range (c : Int) (h0 : 0 ≤ c) (h5 : c ≤ 5) :
    0 ≤ Int.tmod (wrapInt (c + 2)) 5 ∧ Int.tmod (wrapInt (c + 2)) 5 ≤ 4 := by
  interval_cases c <;> decide

/-- A frame size of two values can be indexed at 0 and 1. -/
theorem index_frameSize (frameSize : List Int) (h : 2 ≤ frameSize.length) :
    ∃ a b, index frameSize 0 = some a ∧ index frameSize 1 = some b := by
  rcases frameSize with _ | ⟨a, _ | ⟨b, t⟩⟩
  · simp at h
  · simp at h
  · exact ⟨a, b, rfl, rfl⟩

/-- One `Update` on a message that is not a quit key: it returns, and what it keeps
and changes. -/
theorem Update_step (E : Env) (m : Model E) (msg : Msg) (hrows : SixCells m)
    (hc : ColumnInRange m) (hq : isQuit msg = false)
    (hmap : isToggle msg = true → m.selectedRows.isSome = true)
    (hfs : isResize msg = true → 2 ≤ m.frameSize.length) :
    ∃ m1, Update E m msg = some (m1, Cmd.Batch) ∧
      m1.originalRows = m.originalRows ∧ m1.frameSize = m.frameSize ∧
      ColumnInRange m1 ∧ (m.filterColumn ≤ 4 → m1.filterColumn ≤ 4) ∧
      m1.textInput = E.textInputUpdate m.textInput msg ∧
      m1.table = E.tableUpdate (E.tableSetRows (tableBeforeRows E m msg)
        (Visible_spec E m.originalRows m1.selectedRows (E.textInputValue m1.textInput)
          m1.filterColumn)) msg ∧
      (isToggle msg = false → m1.selectedRows = m.selectedRows) ∧
      (m.selectedRows.isSome = true → m1.selectedRows.isSome = true) ∧
      (isResize msg = false → m1.list = m.list) := by
  cases msg with
  | WindowSizeMsg w h =>
    obtain ⟨a, b, ha, hb⟩ := index_frameSize m.frameSize (hfs rfl)
    simp only [Update, ha, hb]
    rw [refresh_eq]
    · exact ⟨_, rfl, rfl, rfl, hc, id, rfl, rfl, fun _ => rfl, id, fun h => by simp [isResize] at h⟩
    · exact hrows
    · exact hc
  | Other tag =>
    simp only [Update]
    rw [refresh_eq]
    · exact ⟨_, rfl, rfl, rfl, hc, id, rfl, rfl, fun _ => rfl, id, fun _ => rfl⟩
    · exact hrows
    · exact hc
  | KeyMsg k =>
    obtain ⟨kt, runes⟩ := k
    cases kt with
    | KeyCtrlC => simp [isQuit] at hq
    | KeyEsc => simp [isQuit] at hq
    | KeyTab =>
      have hr := tab_column_range m.filterColumn hc.1 hc.2
      have hr5 : 0 ≤ Int.tmod (wrapInt (m.filterColumn + 2)) 5 ∧
          Int.tmod (wrapInt (m.filterColumn + 2)) 5 ≤ 5 := ⟨hr.1, le_trans hr.2 (by decide)⟩
      simp only [Update]
      rw [refresh_eq]
      · exact ⟨_, rfl, rfl, rfl, hr5, fun _ => hr.2, rfl, rfl, fun _ => rfl, id, fun _ => rfl⟩
      · exact hrows
      · exact hr5
    | KeyEnter =>
      have hs := hmap rfl
      cases hsel : m.selectedRows with
      | none => simp [hsel] at hs
      | some f =>
        simp only [Update, hsel, GoMap.get]
        cases hf : f (E.tableCursor m.table) with
        | none =>
          simp only [GoMap.set, Bool.not_false, if_true]
          rw [refresh_eq]
          · exact ⟨_, rfl, rfl, rfl, hc, id, rfl, rfl, fun h => by simp [isToggle] at h,
            fun _ => rfl, fun _ => rfl⟩
          · exact hrows
          · exact hc
        | some v =>
          simp only [GoMap.set, Bool.not_true, Bool.false_eq_true, if_false]
          rw [refresh_eq]
          · exact ⟨_, rfl, rfl, rfl, hc, id, rfl, rfl, fun h => by simp [isToggle] at h,
            fun _ => rfl, fun _ => rfl⟩
          · exact hrows
          · exact hc
    | _ =>
      simp only [Update]
      rw [refresh_eq]
      · exact ⟨_, rfl, rfl, rfl, hc, id, rfl, rfl, fun _ => rfl, id, fun _ => rfl⟩
      · exact hrows
      · exact hc

/-- A quit key returns the model unchanged with `tea.Quit`. -/
theorem Update_quit (E : Env) (m : Model E) (msg : Msg) (hq : isQuit msg = true) :
    Update E m msg = some (m, Cmd.Quit) := by
  cases msg with
  | WindowSizeMsg w h => simp [isQuit] at hq
  | Other tag => simp [isQuit] at hq
  | KeyMsg k =>
    obtain ⟨kt, runes⟩ := k
    cases kt <;> first | rfl | simp [isQuit] at hq

/-- The selection-toggle key on an initialised map. -/
theorem Update_toggle (E : Env) (m : Model E) (f : Int → Option Bool) (runes : List Char)
    (hrows : SixCells m) (hc : ColumnInRange m) (hsel : m.selectedRows = some f) :
    ∃ m1 f1, Update E m (Msg.KeyMsg { keyType := KeyType.KeyEnter, Runes := runes }) =
        some (m1, Cmd.Batch) ∧
      m1.selectedRows = some f1 ∧
      f1 (E.tableCursor m.table) = some (!((f (E.tableCursor m.table)).getD false)) ∧
      (∀ j, j ≠ E.tableCursor m.table → f1 j = f j) ∧
      m1.originalRows = m.originalRows ∧ m1.filterColumn = m.filterColumn := by
  simp only [Update, hsel, GoMap.get]
  cases hf : f (E.tableCursor m.table) with
  | none =>
    simp only [GoMap.set, Bool.not_false, if_true]
    rw [refresh_eq]
    · exact ⟨_, _, rfl, rfl, by simp, fun j hj => by simp [hj], rfl, rfl⟩
    · exact hrows
    · exact hc
  | some v =>
    simp only [GoMap.set, Bool.not_true, Bool.false_eq_true, if_false]
    rw [refresh_eq]
    · exact ⟨_, _, rfl, rfl, by simp, fun j hj => by simp [hj], rfl, rfl⟩
    · exact hrows
    · exact hc

/-- The next-filter-column key. -/
theorem Update_tab (E : Env) (m : Model E) (hrows : SixCells m) (hc : ColumnInRange m) :
    ∃ m1, Update E m (key KeyType.KeyTab) = some (m1, Cmd.Batch) ∧
      m1.filterColumn = Int.tmod (wrapInt (m.filterColumn + 2)) 5 ∧
      SixCells m1 ∧ ColumnInRange m1 := by
  have hr := tab_column_range m.filterColumn hc.1 hc.2
  have hr5 : 0 ≤ Int.tmod (wrapInt (m.filterColumn + 2)) 5 ∧
      Int.tmod (wrapInt (m.filterColumn + 2)) 5 ≤ 5 := ⟨hr.1, le_trans hr.2 (by decide)⟩
  simp only [Update, key]
  rw [refresh_eq]
  · exact ⟨_, rfl, rfl, hrows, hr5⟩
  · exact hrows
  · exact hr5

/-- The two wizard-navigation keys. -/
theorem Update_wizard (E : Env) (m : Model E) (hrows : SixCells m) (hc : ColumnInRange m) :
    (∃ m1, Update E m (key KeyType.KeyLeft) = some (m1, Cmd.Batch) ∧
      m1.wizardStep = Int.tmod (wrapInt (m.wizardStep + 1)) 2 ∧
      m1.filterColumn = m.filterColumn ∧ m1.textInput = E.textInputUpdate m.textInput (key KeyType.KeyLeft)) ∧
    (∃ m1, Update E m (key KeyType.KeyRight) = some (m1, Cmd.Batch) ∧
      m1.wizardStep = Int.tmod (wrapInt (m.wizardStep - 1)) 2) := by
  constructor
  · simp only [Update, key]
    rw [refresh_eq]
    · exact ⟨_, rfl, rfl, rfl, rfl⟩
    · exact hrows
    · exact hc
  · simp only [Update, key]
    rw [refresh_eq]
    · exact ⟨_, rfl, rfl⟩
    · exact hrows
    · exact hc

/-- The rows built by `New` have six cells. -/
theorem New_sixCells (E : Env) (result : List MetadataField) (frameSize : List Int) :
    SixCells (New E result frameSize) := by
  intro row hrow
  simp only [New, newRows, List.mem_map] at hrow
  obtain ⟨field, _, rfl⟩ := hrow
  rfl

/-- The filter column of the model built by `New` is in range. -/
theorem New_columnInRange (E : Env) (result : List MetadataField) (frameSize : List Int) :
    ColumnInRange (New E result frameSize) := by
  constructor <;> simp [New]

/-- An empty search text keeps every row. -/
theorem Visible_spec_empty (E : Env) (rows : List Row) (sel : GoMap) (c : Int) :
    Visible_spec E rows sel "" c = rows.enum.map (visibleRow sel) := by
  unfold Visible_spec
  congr 1
  apply List.filter_eq_self.mpr
  intro p _
  simp [matchesFilter, ToLower]

/-- The invariant of the reachable states. -/
theorem run_invariant (E : Env) (evs : List Msg) :
    ∀ m : Model E, SixCells m → ColumnInRange m → m.filterColumn ≤ 4 →
      m.selectedRows.isSome = true → 2 ≤ m.frameSize.length →
      ∃ m1, run E m evs = some m1 ∧ SixCells m1 ∧ ColumnInRange m1 ∧ m1.filterColumn ≤ 4 ∧
        m1.selectedRows.isSome = true ∧ 2 ≤ m1.frameSize.length := by
  induction evs with
  | nil => intro m h1 h2 h3 h4 h5; exact ⟨m, rfl, h1, h2, h3, h4, h5⟩
  | cons msg rest ih =>
    intro m h1 h2 h3 h4 h5
    cases hq : isQuit msg with
    | true =>
      refine ⟨m, ?_, h1, h2, h3, h4, h5⟩
      simp only [run, Update_quit E m msg hq]
    | false =>
      obtain ⟨m1, hu, ho, hf, hcr, h4c, _, _, _, hs, _⟩ :=
        Update_step E m msg h1 h2 hq (fun _ => h4) (fun _ => h5)
      have h1a : SixCells m1 := by unfold SixCells; rw [ho]; exact h1
      obtain ⟨m2, hr, r1, r2, r3, r4, r5⟩ := ih m1 h1a hcr (h4c h3) (hs h4) (hf ▸ h5)
      exact ⟨m2, by simp only [run, hu, hr], r1, r2, r3, r4, r5⟩

/-! ## Claims -/

/-- C1 (evaluation at the failing input): five records, the search text "a"
hides the second and the fourth, and the cursor is on the second visible row
(cursor 1, the record "ay" of original index 2).  The selection-toggle key
flips the flag of the key 1, the hidden record "b", and the flag of the key
2 stays unset: the three visible rows keep the unselected marker. -/
theorem C1_toggle_uses_raw_cursor :
    (run simEnv (New simEnv fiveRecords [0, 0]) [typed "a", key KeyType.KeyDown]).map
        (fun m => (m.table.rows.map (fun row => row.take 2), m.table.cursor)) =
      some ([["🞅", "ax"], ["🞅", "ay"], ["🞅", "az"]], 1) ∧
    (run simEnv (New simEnv fiveRecords [0, 0])
        [typed "a", key KeyType.KeyDown, key KeyType.KeyEnter]).map
        (fun m => (m.selectedRows.lookup 1, m.selectedRows.lookup 2,
          m.table.rows.map (fun row => row.take 2))) =
      some (true, false, [["🞅", "ax"], ["🞅", "ay"], ["🞅", "az"]]) := by
  constructor <;> decide

/-- C2: along every sequence of events without the selection-toggle key,
handled from a model with six-cell rows, a filter column among the six
columns and a frame size of two values, the session returns a model whose
selection map and rows are those of the start; so when the filter column
and the search text are back to what they were, the filter loop yields the
same rows, with the same markers, as at the start. -/
theorem C2_selection_preserved (E : Env) (m : Model E) (evs : List Msg) (hrows : SixCells m)
    (hc : ColumnInRange m) (hfs : 2 ≤ m.frameSize.length)
    (hev : ∀ e ∈ evs, isToggle e = false) :
    ∃ m1, run E m evs = some m1 ∧ m1.selectedRows = m.selectedRows ∧
      (∀ i : Int, m1.selectedRows.lookup i = m.selectedRows.lookup i) ∧
      m1.originalRows = m.originalRows ∧
      (m1.filterColumn = m.filterColumn →
        E.textInputValue m1.textInput = E.textInputValue m.textInput →
        ∃ rows,
          filterLoop E m.filterColumn m.selectedRows (ToLower E (E.textInputValue m.textInput)) 0
            m.originalRows [] = some rows ∧
          filterLoop E m1.filterColumn m1.selectedRows (ToLower E (E.textInputValue m1.textInput))
            0 m1.originalRows [] = some rows) := by
  have main : ∀ (evs : List Msg) (m : Model E), SixCells m → ColumnInRange m →
      2 ≤ m.frameSize.length → (∀ e ∈ evs, isToggle e = false) →
      ∃ m1, run E m evs = some m1 ∧ m1.selectedRows = m.selectedRows ∧
        m1.originalRows = m.originalRows := by
    intro evs
    induction evs with
    | nil => intro m _ _ _ _; exact ⟨m, rfl, rfl, rfl⟩
    | cons msg rest ih =>
      intro m h1 h2 h3 h4
      cases hq : isQuit msg with
      | true => exact ⟨m, by simp only [run, Update_quit E m msg hq], rfl, rfl⟩
      | false =>
        have ht : isToggle msg = false := h4 msg (List.mem_cons_self _ _)
        obtain ⟨m1, hu, ho, hf, hcr, _, _, _, hsel, _, _⟩ :=
          Update_step E m msg h1 h2 hq (fun h => by simp [ht] at h) (fun _ => h3)
        have h1a : SixCells m1 := by unfold SixCells; rw [ho]; exact h1
        obtain ⟨m2, hr, r1, r2⟩ :=
          ih m1 h1a hcr (hf ▸ h3) (fun e he => h4 e (List.mem_cons_of_mem _ he))
        exact ⟨m2, by simp only [run, hu, hr], r1.trans (hsel ht), r2.trans ho⟩
  obtain ⟨m1, hr, hs, ho⟩ := main evs m hrows hc hfs hev
  refine ⟨m1, hr, hs, fun i => by rw [hs], ho, ?_⟩
  intro hcol hval
  refine ⟨_, filterLoop_spec E m.filterColumn m.selectedRows _ hc.1 hc.2 m.originalRows 0 []
    hrows, ?_⟩
  rw [hcol, hs, ho, hval]
  exact filterLoop_spec E m.filterColumn m.selectedRows _ hc.1 hc.2 m.originalRows 0 [] hrows

/-- C2 (witness): the first of three records is selected; typing "z" hides
every record and backspace reverts the search text: the three rows are
back, the first with the selected marker. -/
theorem C2_selection_preserved_witness :
    ∃ m1 rows, run simEnv
        { New simEnv threeRecords [0, 0] with
          selectedRows := some (fun j => if j = 0 then some true else none) }
        [typed "z", key KeyType.KeyBackspace] = some m1 ∧
      m1.selectedRows = some (fun j => if j = 0 then some true else none) ∧
      m1.filterColumn = Col_FullName ∧ simEnv.textInputValue m1.textInput = "" ∧
      filterLoop simEnv Col_FullName (some (fun j => if j = 0 then some true else none))
        (ToLower simEnv "") 0 (newRows threeRecords) [] = some rows ∧
      filterLoop simEnv m1.filterColumn m1.selectedRows
        (ToLower simEnv (simEnv.textInputValue m1.textInput)) 0 m1.originalRows [] = some rows ∧
      rows = [["🞊", "Account", "u", "d", "u", "d"], ["🞅", "Contact", "u", "d", "u", "d"],
        ["🞅", "Lead", "u", "d", "u", "d"]] := by
  obtain ⟨m1, hr, hs, _, _, hrows⟩ := C2_selection_preserved simEnv
    { New simEnv threeRecords [0, 0] with
      selectedRows := some (fun j => if j = 0 then some true else none) }
    [typed "z", key KeyType.KeyBackspace]
    (New_sixCells simEnv threeRecords [0, 0]) (New_columnInRange simEnv threeRecords [0, 0])
    (by decide) (by decide)
  have e : (run simEnv
        { New simEnv threeRecords [0, 0] with
          selectedRows := some (fun j => if j = 0 then some true else none) }
        [typed "z", key KeyType.KeyBackspace]).map (fun m => (m.filterColumn, m.textInput)) =
      some (1, "") := by decide
  rw [hr] at e
  simp only [Option.map_some', Option.some.injEq, Prod.mk.injEq] at e
  obtain ⟨rows, h1, h2⟩ := hrows e.1 e.2
  refine ⟨m1, rows, hr, hs, e.1, e.2, h1, h2, ?_⟩
  have e2 : filterLoop simEnv Col_FullName (some (fun j => if j = 0 then some true else none))
      (ToLower simEnv "") 0 (newRows threeRecords) [] =
      some [["🞊", "Account", "u", "d", "u", "d"], ["🞅", "Contact", "u", "d", "u", "d"],
        ["🞅", "Lead", "u", "d", "u", "d"]] := by decide
  exact Option.some.inj (h1.symm.trans e2)

/-- C3: for a model with six-cell rows and a filter column among the six
columns, the filter loop returns exactly the rows that the specification
describes (the rows paired with their original index, those whose cell at
the column contains the search text, both case-folded, kept in order, each
as its marker followed by its cells 1 to 5); every message that is not a
quit key makes `Update` set these rows, computed from the search text, the
selection map and the filter column of the returned model, on the table;
and an empty search text keeps every row. -/
theorem C3_filter_rows (E : Env) (m : Model E) (msg : Msg) (s : String) (hrows : SixCells m)
    (hc : ColumnInRange m) (hq : isQuit msg = false)
    (hmap : isToggle msg = true → m.selectedRows.isSome = true)
    (hfs : isResize msg = true → 2 ≤ m.frameSize.length) :
    filterLoop E m.filterColumn m.selectedRows (ToLower E s) 0 m.originalRows [] =
      some (Visible_spec E m.originalRows m.selectedRows s m.filterColumn) ∧
    (∃ m1, Update E m msg = some (m1, Cmd.Batch) ∧
      m1.table = E.tableUpdate (E.tableSetRows (tableBeforeRows E m msg)
        (Visible_spec E m.originalRows m1.selectedRows (E.textInputValue m1.textInput)
          m1.filterColumn)) msg) ∧
    Visible_spec E m.originalRows m.selectedRows "" m.filterColumn =
      m.originalRows.enum.map (visibleRow m.selectedRows) := by
  refine ⟨?_, ?_, Visible_spec_empty E _ _ _⟩
  · rw [filterLoop_spec E m.filterColumn m.selectedRows s hc.1 hc.2 m.originalRows 0 [] hrows]
    rfl
  · obtain ⟨m1, hu, _, _, _, _, _, ht, _⟩ := Update_step E m msg hrows hc hq hmap hfs
    exact ⟨m1, hu, ht⟩

/-- C3 (witness): the records Account, Contact and Lead with the search text
"a" on the name column: all three rows, in that order. -/
theorem C3_filter_rows_witness :
    (filterLoop simEnv Col_FullName (some fun _ => none) (ToLower simEnv "a") 0
        (newRows threeRecords) [] =
      some (Visible_spec simEnv (newRows threeRecords) (some fun _ => none) "a" Col_FullName) ∧
    (∃ m1, Update simEnv (New simEnv threeRecords [0, 0]) (typed "a") = some (m1, Cmd.Batch) ∧
      m1.table = simEnv.tableUpdate (simEnv.tableSetRows
        (tableBeforeRows simEnv (New simEnv threeRecords [0, 0]) (typed "a"))
        (Visible_spec simEnv (newRows threeRecords) m1.selectedRows
          (simEnv.textInputValue m1.textInput) m1.filterColumn)) (typed "a")) ∧
    Visible_spec simEnv (newRows threeRecords) (some fun _ => none) "" Col_FullName =
      (newRows threeRecords).enum.map (visibleRow (some fun _ => none))) ∧
    Visible_spec simEnv (newRows threeRecords) (some fun _ => none) "a" Col_FullName =
      [["🞅", "Account", "u", "d", "u", "d"], ["🞅", "Contact", "u", "d", "u", "d"],
        ["🞅", "Lead", "u", "d", "u", "d"]] :=
  ⟨C3_filter_rows simEnv (New simEnv threeRecords [0, 0]) (typed "a") "a"
    (New_sixCells simEnv threeRecords [0, 0]) (New_columnInRange simEnv threeRecords [0, 0])
    (by decide) (by decide) (by decide), by decide⟩

/-- C4: on an initialised selection map, with six-cell rows and a filter
column among the six columns, the selection-toggle key makes `Update` return
a model in which the flag of the cursor value `k` is present and is the
negation of its previous value (absent counting as false), and every other
key is as before; a second toggle at the same `k` restores the status of
every key. -/
theorem C4_toggle (E : Env) (m : Model E) (f : Int → Option Bool) (k : Int)
    (runes : List Char) (hrows : SixCells m) (hc : ColumnInRange m)
    (hsel : m.selectedRows = some f) (hk : E.tableCursor m.table = k) :
    ∃ m1 f1, Update E m (Msg.KeyMsg { keyType := KeyType.KeyEnter, Runes := runes }) =
        some (m1, Cmd.Batch) ∧
      m1.selectedRows = some f1 ∧ f1 k = some (!((f k).getD false)) ∧
      (∀ j, j ≠ k → f1 j = f j) ∧
      (E.tableCursor m1.table = k →
        ∃ m2 f2, Update E m1 (Msg.KeyMsg { keyType := KeyType.KeyEnter, Runes := runes }) =
            some (m2, Cmd.Batch) ∧
          m2.selectedRows = some f2 ∧ ∀ j, (f2 j).getD false = (f j).getD false) := by
  obtain ⟨m1, f1, hu, hs1, hk1, ho1, hr1, hc1⟩ := Update_toggle E m f runes hrows hc hsel
  rw [hk] at hk1 ho1
  refine ⟨m1, f1, hu, hs1, hk1, ho1, ?_⟩
  intro hk2
  have hrows1 : SixCells m1 := by unfold SixCells; rw [hr1]; exact hrows
  have hcol1 : ColumnInRange m1 := by unfold ColumnInRange; rw [hc1]; exact hc
  obtain ⟨m2, f2, hu2, hs2, hkk, ho2, _, _⟩ := Update_toggle E m1 f1 runes hrows1 hcol1 hs1
  rw [hk2] at hkk ho2
  refine ⟨m2, f2, hu2, hs2, ?_⟩
  intro j
  by_cases hj : j = k
  · subst hj
    rw [hkk, hk1]
    simp
  · rw [ho2 j hj, ho1 j hj]

/-- C4 (witness): two toggles at cursor 0 on the empty map of a new model:
the flag of 0 becomes true, the cursor stays on 0, and the second toggle
makes the flag false again. -/
theorem C4_toggle_witness :
    ∃ m1 f1 m2 f2, Update simEnv (New simEnv threeRecords [0, 0])
        (Msg.KeyMsg { keyType := KeyType.KeyEnter, Runes := [] }) = some (m1, Cmd.Batch) ∧
      m1.selectedRows = some f1 ∧ f1 0 = some true ∧ simEnv.tableCursor m1.table = 0 ∧
      Update simEnv m1 (Msg.KeyMsg { keyType := KeyType.KeyEnter, Runes := [] }) =
        some (m2, Cmd.Batch) ∧
      m2.selectedRows = some f2 ∧ (f2 0).getD false = false := by
  obtain ⟨m1, f1, hu, hs, hk, _, h2⟩ :=
    C4_toggle simEnv (New simEnv threeRecords [0, 0]) (fun _ => none) 0 []
      (New_sixCells simEnv threeRecords [0, 0]) (New_columnInRange simEnv threeRecords [0, 0])
      rfl rfl
  have e : (Update simEnv (New simEnv threeRecords [0, 0])
      (Msg.KeyMsg { keyType := KeyType.KeyEnter, Runes := [] })).map
        (fun r => r.1.table.cursor) = some 0 := by decide
  rw [hu] at e
  simp only [Option.map_some', Option.some.injEq] at e
  obtain ⟨m2, f2, hu2, hs2, hall⟩ := h2 e
  exact ⟨m1, f1, m2, f2, hu, hs, hk, e, hu2, hs2, hall 0⟩

/-- C5 (evaluation at the failing input): in the initial state
`PickMetadataType` the step-back key (`tea.KeyRight`, which computes
`(wizardStep - 1) % 2` with the truncating remainder of Go) makes `Update`
return a model whose `wizardStep` is -1, neither of the two declared states;
the step-forward key in `PickMetadataRecord` does yield `PickMetadataType`. -/
theorem C5_step_back_is_negative (E : Env) (result : List MetadataField) (frameSize : List Int) :
    (∃ m1, Update E (New E result frameSize) (key KeyType.KeyRight) = some (m1, Cmd.Batch) ∧
      m1.wizardStep = -1 ∧ m1.wizardStep ≠ PickMetadataRecord ∧
      m1.wizardStep ≠ PickMetadataType) ∧
    (∃ m1 m2, Update E (New E result frameSize) (key KeyType.KeyLeft) = some (m1, Cmd.Batch) ∧
      m1.wizardStep = PickMetadataRecord ∧
      Update E m1 (key KeyType.KeyLeft) = some (m2, Cmd.Batch) ∧
      m2.wizardStep = PickMetadataType) := by
  have h1 := New_sixCells E result frameSize
  have h2 := New_columnInRange E result frameSize
  have w0 : (New E result frameSize).wizardStep = 0 := rfl
  constructor
  · obtain ⟨m1, hu, hw⟩ := (Update_wizard E (New E result frameSize) h1 h2).2
    have hv : m1.wizardStep = -1 := by rw [hw, w0]; decide
    exact ⟨m1, hu, hv, by rw [hv]; decide, by rw [hv]; decide⟩
  · obtain ⟨m1, hu, hw, hcol, _⟩ := (Update_wizard E (New E result frameSize) h1 h2).1
    have hv : m1.wizardStep = 1 := by rw [hw, w0]; decide
    obtain ⟨mm, hmm, hrows, _⟩ :=
      Update_step E (New E result frameSize) (key KeyType.KeyLeft) h1 h2 rfl
        (fun h => by simp [isToggle, key] at h) (fun h => by simp [isResize, key] at h)
    have hm : mm = m1 := by
      have := hmm.symm.trans hu
      simpa using this
    subst hm
    have h1a : SixCells mm := by unfold SixCells; rw [hrows]; exact h1
    have h2a : ColumnInRange mm := by unfold ColumnInRange; rw [hcol]; exact h2
    obtain ⟨m2, hu2, hw2, _, _⟩ := (Update_wizard E mm h1a h2a).1
    exact ⟨mm, m2, hu, hv, hu2, by rw [hw2, hv]; decide⟩

/-- C6 (evaluation at the failing input): from the model built by `New`,
two presses of the next-filter-column key leave `filterColumn` on the
selector column `Col_Checkbox`. -/
theorem C6_tab_reaches_checkbox (E : Env) (result : List MetadataField)
    (frameSize : List Int) :
    ∃ m1, run E (New E result frameSize) [key KeyType.KeyTab, key KeyType.KeyTab] = some m1 ∧
      m1.filterColumn = Col_Checkbox := by
  obtain ⟨m1, hu1, hf1, hr1, hc1⟩ :=
    Update_tab E (New E result frameSize) (New_sixCells E result frameSize)
      (New_columnInRange E result frameSize)
  obtain ⟨m2, hu2, hf2, _, _⟩ := Update_tab E m1 hr1 hc1
  have e0 : (New E result frameSize).filterColumn = 1 := rfl
  refine ⟨m2, by simp only [run, hu1, hu2], ?_⟩
  rw [hf2, hf1, e0]
  decide

/-- C7 (evaluation at the failing input): the filter columns after 0 to 5
presses of the next-filter-column key from the model built by `New`: the
column is back on `Col_FullName` after five presses, having visited
`Col_Checkbox` and not `Col_UpdatedAt`; and no press, from any model, returns
a model whose filter column is `Col_UpdatedAt`. -/
theorem C7_tab_cycle (E : Env) (result : List MetadataField) (frameSize : List Int) :
    (List.range 6).map (fun n =>
        (run E (New E result frameSize) (List.replicate n (key KeyType.KeyTab))).map
          (fun m => m.filterColumn)) =
      [some Col_FullName, some Col_CreatedAt, some Col_Checkbox, some Col_CreatedBy,
        some Col_UpdatedBy, some Col_FullName] ∧
    ∀ m : Model E, (Update E m (key KeyType.KeyTab)).map (fun r => r.1.filterColumn) ≠
      some Col_UpdatedAt := by
  constructor
  · obtain ⟨m1, hu1, hf1, hr1, hc1⟩ :=
      Update_tab E (New E result frameSize) (New_sixCells E result frameSize)
        (New_columnInRange E result frameSize)
    obtain ⟨m2, hu2, hf2, hr2, hc2⟩ := Update_tab E m1 hr1 hc1
    obtain ⟨m3, hu3, hf3, hr3, hc3⟩ := Update_tab E m2 hr2 hc2
    obtain ⟨m4, hu4, hf4, hr4, hc4⟩ := Update_tab E m3 hr3 hc3
    obtain ⟨m5, hu5, hf5, _, _⟩ := Update_tab E m4 hr4 hc4
    have e0 : (New E result frameSize).filterColumn = 1 := rfl
    have e1 : m1.filterColumn = 3 := by rw [hf1, e0]; decide
    have e2 : m2.filterColumn = 0 := by rw [hf2, e1]; decide
    have e3 : m3.filterColumn = 2 := by rw [hf3, e2]; decide
    have e4 : m4.filterColumn = 4 := by rw [hf4, e3]; decide
    have e5 : m5.filterColumn = 1 := by rw [hf5, e4]; decide
    simp [List.range, List.range.loop, List.replicate, run, hu1, hu2, hu3, hu4, hu5, e0, e1, e2,
      e3, e4, e5]
  · intro m
    simp only [Update, key, refresh]
    split
    · simp
    · simp only [Option.map_some', ne_eq, Option.some.injEq]
      intro h
      have hlt := Int.tmod_lt_of_pos (wrapInt (m.filterColumn + 2)) (show (0 : Int) < 5 by decide)
      rw [h] at hlt
      exact absurd hlt (by decide)

/-- C10 (evaluation at the failing inputs): `ColumnID.String` indexes its
five labels by the raw column value, so each filterable column gets the
label of its right neighbour, `Col_UpdatedAt` has none (the index is out of
range), and on the record view of the model built by `New`, which filters
on the name column, `View` prints "Created by" after "Filtering by:". -/
theorem C10_label_off_by_one (E : Env) (result : List MetadataField) (frameSize : List Int) :
    [Col_FullName, Col_CreatedBy, Col_CreatedAt, Col_UpdatedBy, Col_UpdatedAt].map
        ColumnID.String =
      [some "Created by", some "Created at", some "Updated by", some "Updated at", none] ∧
    [Col_FullName, Col_CreatedBy, Col_CreatedAt, Col_UpdatedBy, Col_UpdatedAt].map
        (fun c => (index columns c).map Column.Title) =
      [some "Metadata name", some "Created by", some "Created at", some "Updated by",
        some "Updated at"] ∧
    ∃ m1, Update E (New E result frameSize) (key KeyType.KeyLeft) = some (m1, Cmd.Batch) ∧
      m1.wizardStep = PickMetadataRecord ∧ m1.filterColumn = Col_FullName ∧
      View E m1 = some (" Filtering by: " ++ E.highlightRender "Created by" ++
        " (Press [Tab] to switch)\n Input: " ++
        E.textInputView (E.textInputUpdate E.textInputNew (key KeyType.KeyLeft)) ++ "\n\n" ++
        E.baseRender (E.tableView m1.table) ++ "\n") := by
  refine ⟨by decide, by decide, ?_⟩
  obtain ⟨m1, hu, hw, hcol, hti⟩ :=
    (Update_wizard E (New E result frameSize) (New_sixCells E result frameSize)
      (New_columnInRange E result frameSize)).1
  have w0 : (New E result frameSize).wizardStep = 0 := rfl
  have hv : m1.wizardStep = 1 := by rw [hw, w0]; decide
  have hcol1 : m1.filterColumn = 1 := hcol
  refine ⟨m1, hu, hv, hcol1, ?_⟩
  simp only [View, recordView, hv, hcol1, hti]
  rfl

/-- C8 (evaluation at the failing input): in the state `PickMetadataType`,
whose view is the list, the down key is neither a quit key nor a
wizard-navigation key and the list widget of `simEnv` would move its cursor
on it; `Update` hands the key to the text input and to the table only, and
returns the list as it was. -/
theorem C8_list_gets_no_event :
    (New simEnv threeRecords [0, 0]).wizardStep = PickMetadataType ∧
    isQuit (key KeyType.KeyDown) = false ∧ isWizardKey (key KeyType.KeyDown) = false ∧
    ∃ m1, Update simEnv (New simEnv threeRecords [0, 0]) (key KeyType.KeyDown) =
        some (m1, Cmd.Batch) ∧
      m1.list = (New simEnv threeRecords [0, 0]).list ∧
      m1.list ≠ simEnv.listUpdate (New simEnv threeRecords [0, 0]).list (key KeyType.KeyDown) := by
  refine ⟨rfl, rfl, rfl, ?_⟩
  obtain ⟨m1, hu, _, _, _, _, _, _, _, _, hl⟩ :=
    Update_step simEnv (New simEnv threeRecords [0, 0]) (key KeyType.KeyDown)
      (New_sixCells simEnv threeRecords [0, 0]) (New_columnInRange simEnv threeRecords [0, 0])
      rfl (fun h => by simp [isToggle, key] at h) (fun h => by simp [isResize, key] at h)
  refine ⟨m1, hu, hl rfl, ?_⟩
  rw [hl rfl]
  decide

/-- C9: for every fetched result (its rows have six cells by construction,
and it may be empty), every frame size of at least two values and every
finite sequence of messages, the session from the model built by `New`
returns a model (no `Update` on the way panics), `View` returns on it, its
filter column is a valid index into every row and into the five labels of
`ColumnID.String`, and its selection map is initialised. -/
theorem C9_no_panic (E : Env) (result : List MetadataField) (frameSize : List Int)
    (evs : List Msg) (hfs : 2 ≤ frameSize.length) :
    ∃ m, run E (New E result frameSize) evs = some m ∧
      (View E m).isSome = true ∧
      (∀ row ∈ m.originalRows, row.length = 6 ∧ (index row m.filterColumn).isSome = true) ∧
      (ColumnID.String m.filterColumn).isSome = true ∧
      m.selectedRows.isSome = true ∧
      (∀ msg, ∃ r, Update E m msg = some r) := by
  obtain ⟨m, hr, h1, h2, h3, h4, h5⟩ :=
    run_invariant E evs (New E result frameSize) (New_sixCells E result frameSize)
      (New_columnInRange E result frameSize) (by simp [New]) rfl hfs
  have hlabel : (ColumnID.String m.filterColumn).isSome = true := by
    have h0 := h2.1
    unfold ColumnID.String
    generalize m.filterColumn = c at h0 h3
    interval_cases c <;> rfl
  refine ⟨m, hr, ?_, ?_, hlabel, h4, ?_⟩
  · unfold View recordView
    cases hl : ColumnID.String m.filterColumn with
    | none => simp [hl] at hlabel
    | some label => split_ifs <;> rfl
  · intro row hrow
    refine ⟨h1 row hrow, ?_⟩
    rw [index_six row m.filterColumn (h1 row hrow) h2.1 h2.2]
    rfl
  · intro msg
    cases hq : isQuit msg with
    | true => exact ⟨_, Update_quit E m msg hq⟩
    | false =>
      obtain ⟨m1, hu, _⟩ := Update_step E m msg h1 h2 hq (fun _ => h4) (fun _ => h5)
      exact ⟨_, hu⟩

/-- C9 (witness): a session on an empty result with a resize, two column
changes, a step back and a toggle. -/
theorem C9_no_panic_witness :
    ∃ m, run simEnv (New simEnv [] [2, 3])
        [Msg.WindowSizeMsg 80 24, key KeyType.KeyTab, key KeyType.KeyTab, key KeyType.KeyRight,
          key KeyType.KeyEnter] = some m ∧
      (View simEnv m).isSome = true ∧
      (∀ row ∈ m.originalRows, row.length = 6 ∧ (index row m.filterColumn).isSome = true) ∧
      (ColumnID.String m.filterColumn).isSome = true ∧
      m.selectedRows.isSome = true ∧
      (∀ msg, ∃ r, Update simEnv m msg = some r) :=
  C9_no_panic simEnv [] [2, 3]
    [Msg.WindowSizeMsg 80 24, key KeyType.KeyTab, key KeyType.KeyTab, key KeyType.KeyRight,
      key KeyType.KeyEnter] (by decide)

end MetadataRetriever
